import Mathlib

/-!
Shallow embedding of the Release Snapshot Cache & Platform Resolution
Engine of the hazelArgos update-distribution backend, together with
theorems checking the natural-language specification against the code.

The embedding covers:
* the Platform Identifier Normalizer (`lib/platform.js`, exported as
  `checkPlatform`),
* the Alias Resolver (`lib/aliases.js`, exported as `checkAlias`),
* the Snapshot Cache (`lib/cache.js`, class `Cache`: `refreshCache`,
  `isOutdated`, `loadCache`), with the network, the YAML parser and the
  system clock supplied as an explicit environment.
-/

namespace HazelArgos

/-! ## String helpers mirroring the JavaScript string primitives -/

/-- JavaScript `haystack.includes(needle)` on lists of characters. -/
def containsSub (needle : List Char) : List Char → Bool
  | [] => needle.isEmpty
  | c :: t => if needle.isPrefixOf (c :: t) then true else containsSub needle t

/-- JavaScript `s.includes(sub)`. -/
def jsIncludes (s sub : String) : Bool :=
  containsSub sub.toList s.toList

/-- JavaScript `s.endsWith(pat)`. -/
def jsEndsWith (s pat : String) : Bool :=
  pat.toList.reverse.isPrefixOf s.toList.reverse

/-- Drop the trailing path separators, as Node's `path.extname` does
before looking at the basename. -/
def dropTrailingSlashes (l : List Char) : List Char :=
  (l.reverse.dropWhile (fun c => c == '/')).reverse

/-- The part of the path after the last separator (the basename). -/
def basenamePart (l : List Char) : List Char :=
  (l.reverse.takeWhile (fun c => c != '/')).reverse

/-- Node `path.extname`: the extension of the basename, from its last
dot to the end, dot included.  A basename whose only dot is its leading
character (a dotfile such as `.index`) has no extension, the component
`..` has no extension, and a name without a dot has no extension; a name
with a trailing dot such as `index.` keeps the bare dot. -/
def extname (s : String) : String :=
  let b := basenamePart (dropTrailingSlashes s.toList)
  if b = ['.', '.'] then ""
  else
    let after := (b.reverse.takeWhile (fun c => c != '.')).reverse
    if after.length = b.length then ""
    else
      let i := b.length - after.length - 1
      if i = 0 then "" else String.mk (b.drop i)

/-! ## Platform Identifier Normalizer (`lib/platform.js`)

The source computes `extname(fileName).slice(1)` and then runs a chain
of extension tests; `false` (not recognized) is modelled as `none`. -/

/-- The Normalizer `checkPlatform` from `lib/platform.js`, line for
line: architecture suffix from the `arm64`/`aarch64` markers, then the
`dmg`, `AppImage`, macOS `zip`, `exe` and `rpm`/`deb` rules in order. -/
def checkPlatform (fileName : String) : Option String :=
  let extension := (extname fileName).drop 1
  let arch :=
    if jsIncludes fileName "arm64" || jsIncludes fileName "aarch64" then "_arm64" else ""
  if extension = "dmg" then some ("darwin" ++ arch)
  else if extension = "AppImage" then some ("linux" ++ arch)
  else if (jsIncludes fileName "mac" || jsIncludes fileName "darwin") && extension = "zip" then
    some ("darwin" ++ arch)
  else if extension = "exe" then some "win32"
  else if extension = "rpm" || extension = "deb" then some (extension ++ arch)
  else none

/-- The text after the last dot of the file name (empty when the name
has no dot).  This is the extension notion used verbatim by the claimed
priority algorithm. -/
def textAfterLastDot (fileName : String) : String :=
  let l := fileName.toList
  if l.contains '.' then String.mk ((l.reverse.takeWhile (fun c => c != '.')).reverse)
  else ""

/-- The priority algorithm exactly as the claim states it, with the
extension taken to be the text after the last dot of the file name. -/
def claimedPlatform (fileName : String) : Option String :=
  let extension := textAfterLastDot fileName
  let arch :=
    if jsIncludes fileName "arm64" || jsIncludes fileName "aarch64" then "_arm64" else ""
  if extension = "dmg" then some ("darwin" ++ arch)
  else if extension = "AppImage" then some ("linux" ++ arch)
  else if extension = "zip" && (jsIncludes fileName "mac" || jsIncludes fileName "darwin") then
    some ("darwin" ++ arch)
  else if extension = "exe" then some "win32"
  else if extension = "deb" || extension = "rpm" then some (extension ++ arch)
  else none

/-- The priority algorithm of the claim, amended only in its extension
convention: the extension is the one `path.extname` yields (so a
basename whose only dot is the leading one has no extension). -/
def claimedPlatformExt (fileName : String) : Option String :=
  let extension := (extname fileName).drop 1
  let arch :=
    if jsIncludes fileName "arm64" || jsIncludes fileName "aarch64" then "_arm64" else ""
  if extension = "dmg" then some ("darwin" ++ arch)
  else if extension = "AppImage" then some ("linux" ++ arch)
  else if extension = "zip" && (jsIncludes fileName "mac" || jsIncludes fileName "darwin") then
    some ("darwin" ++ arch)
  else if extension = "exe" then some "win32"
  else if extension = "deb" || extension = "rpm" then some (extension ++ arch)
  else none

/-! ## Alias Resolver (`lib/aliases.js`) -/

/-- The hand-written base alias table, in declaration order. -/
def aliasesBase : List (String × List String) :=
  [("darwin", ["mac", "macos", "osx", "dmg"]),
   ("win32", ["windows", "win", "exe"]),
   ("linux", ["AppImage", "appimage"]),
   ("deb", ["debian"]),
   ("rpm", ["fedora"]),
   ("exe", ["win32", "windows", "win"])]

/-- The full table after the load-time derivation pass: for every base
key `K` with list `L`, a key `K_arm64` whose list is `L` with `_arm64`
appended to every entry, appended after the base keys in order. -/
def aliases : List (String × List String) :=
  aliasesBase ++
    aliasesBase.map (fun p => (p.1 ++ "_arm64", p.2.map (fun a => a ++ "_arm64")))

/-- The resolver exported by `lib/aliases.js`: if the token is an own
key of the table return it unchanged, else scan the lists in key order
and return the first owning key, else not recognized (`false`, modelled
as `none`). -/
def checkAlias (platform : String) : Option String :=
  if (aliases.lookup platform).isSome then some platform
  else
    match aliases.find? (fun p => p.2.contains platform) with
    | some p => some p.1
    | none => none

/-! ## Snapshot Cache (`lib/cache.js`)

The cache owns the mutable `latest` snapshot and the `lastUpdate`
timestamp.  The network (release-list fetch under retry, RELEASES
document fetch-and-rewrite, yml fetches), the YAML parser and the clock
are inputs of a refresh, so they are passed as an explicit `Env`; a
fetch outcome of `none` models a rejected promise (for the release list:
the retry budget exhausted). -/

/-- A raw asset of a release as reported by the upstream host:
`name`, `browser_download_url`, `url` (the API url), `content_type`,
`size` in bytes. -/
structure Asset where
  name : String
  browser_download_url : String
  url : String
  content_type : String
  size : Nat
deriving DecidableEq, Repr

/-- A release from the upstream release list; `assets` is `none` when
the field is missing or not an array. -/
structure Release where
  tag_name : String
  body : String
  published_at : String
  prerelease : Bool
  draft : Bool
  assets : Option (List Asset)
deriving DecidableEq, Repr

/-- A platform asset of the snapshot.  The `size` field stores tenths of
a megabyte, i.e. `Math.round(size / 1000000 * 10)` of the source kept as
an exact integer instead of the float `.../ 10`. -/
structure PlatformAsset where
  name : String
  api_url : String
  url : String
  content_type : String
  size : Nat
  sha512 : Option String := none
  blockMapSize : Option Nat := none
deriving DecidableEq, Repr

/-- The source's `Math.round(size / 1000000 * 10)` in exact integer
arithmetic (round half up). -/
def roundedSizeMB (size : Nat) : Nat :=
  (size + 50000) / 100000

/-- The `files` object of the snapshot: the rewritten RELEASES document
and the retained raw yml manifest texts keyed by file name.  Either
field is absent until first set. -/
structure CacheFiles where
  RELEASES : Option String := none
  yamlFiles : Option (List (String × String)) := none
deriving DecidableEq, Repr

/-- The snapshot object `this.latest` (initially `{}`: every field
absent). `platforms` and `yamlFiles` are association lists in insertion
order, matching JavaScript object key order. -/
structure Latest where
  version : Option String := none
  notes : Option String := none
  pub_date : Option String := none
  platforms : Option (List (String × PlatformAsset)) := none
  files : Option CacheFiles := none
deriving DecidableEq, Repr

/-- The mutable state of a `Cache` instance: the snapshot and the
staleness clock (`null` before the first successful refresh). -/
structure CacheState where
  latest : Latest := {}
  lastUpdate : Option Nat := none
deriving DecidableEq, Repr

/-- One entry of a parsed manifest's `files` array: a file reference,
a checksum and (in the Linux manifest) a block-map size; each field may
be absent. -/
structure ManifestEntry where
  url : Option String := none
  sha512 : Option String := none
  blockMapSize : Option Nat := none
deriving DecidableEq, Repr

/-- The outcome of the release-list fetch of `refreshCache` (a retried
GitHub API call followed by `response.json()`). -/
inductive ReleaseListResult where
  /-- Every retry attempt failed (non-200 status or transport failure):
  the retry wrapper rethrows. -/
  | fetchError : ReleaseListResult
  /-- The fetch succeeded but the parsed body is not an array. -/
  | okNonArray : ReleaseListResult
  /-- The fetch succeeded with an array of releases (possibly empty). -/
  | okArray (data : List Release) : ReleaseListResult
deriving DecidableEq, Repr

/-- The environment of one refresh cycle: the clock and the outcome of
every external call the cycle can make.  `cacheReleaseList` is the
result of the source's `cacheReleaseList` method (a retried fetch of the
RELEASES document followed by a regex rewrite of the embedded nupkg
references to absolute URLs), keyed by the requested URL; `none` models
a throw.  `ymlFetch` is the plain fetch-and-read of a yml asset;
`parseYaml` is `yaml.load` followed by the `.files` access, with `none`
for a parse error or a document without a `files` array. -/
structure Env where
  now : Nat
  releaseList : ReleaseListResult
  cacheReleaseList : String → Option String
  ymlFetch : String → Option String
  parseYaml : String → Option (List ManifestEntry)

/-- JavaScript object assignment `m[k] = v` on an association list:
replace in place if the key exists, else append. -/
def setKey {α : Type} (m : List (String × α)) (k : String) (v : α) : List (String × α) :=
  match m with
  | [] => [(k, v)]
  | (k', v') :: rest => if k' = k then (k, v) :: rest else (k', v') :: setKey rest k v

/-- The release-selection predicate of `refreshCache`:
`!item.draft && Boolean(pre) === Boolean(item.prerelease)`. -/
def selectRelease (pre : Bool) (data : List Release) : Option Release :=
  data.find? (fun item => !item.draft && (pre == item.prerelease))

/-- Mutation of one platform asset by a manifest entry: the checksum is
set, and for the Linux-family manifest also the block-map size; no other
field is touched. -/
def updateAsset (isLinux : Bool) (e : ManifestEntry) (a : PlatformAsset) : PlatformAsset :=
  if isLinux then { a with sha512 := e.sha512, blockMapSize := e.blockMapSize }
  else { a with sha512 := e.sha512 }

/-- The inner loop over `Object.entries(this.latest.platforms)`: mutate
the first asset whose `name` equals the manifest entry's file reference,
then `break`. -/
def applyEntryNamed (isLinux : Bool) (e : ManifestEntry) (fileName : String) :
    List (String × PlatformAsset) → List (String × PlatformAsset)
  | [] => []
  | (k, a) :: rest =>
    if a.name = fileName then (k, updateAsset isLinux e a) :: rest
    else (k, a) :: applyEntryNamed isLinux e fileName rest

/-- Application of one manifest entry: skipped when the entry's `url`
field is absent or empty (falsy in the source's `if (fileName)`). -/
def applyManifestEntry (isLinux : Bool) (platforms : List (String × PlatformAsset))
    (e : ManifestEntry) : List (String × PlatformAsset) :=
  match e.url with
  | none => platforms
  | some fileName =>
    if fileName = "" then platforms
    else applyEntryNamed isLinux e fileName platforms

/-- Application of every entry of one parsed manifest, in order. -/
def applyManifest (isLinux : Bool) (platforms : List (String × PlatformAsset))
    (entries : List ManifestEntry) : List (String × PlatformAsset) :=
  entries.foldl (applyManifestEntry isLinux) platforms

/-- Parse one retained yml text and apply its entries; a parse failure
or a document without a `files` array leaves the map untouched (the
source catches and logs). -/
def applyYamlText (env : Env) (isLinux : Bool) (platforms : List (String × PlatformAsset))
    (content : String) : List (String × PlatformAsset) :=
  match env.parseYaml content with
  | some entries => applyManifest isLinux platforms entries
  | none => platforms

/-- The running state of the asset loop of `refreshCache`: the snapshot
under construction and the held-aside yml texts. -/
structure LoopState where
  latest : Latest
  yamlFiles : List (String × String)
deriving DecidableEq, Repr

/-- One iteration of the asset loop of `refreshCache`: the RELEASES
asset (files object ensured, then fetch-and-rewrite, failure caught),
else a yml asset (best-effort fetch into the held-aside map), else the
Normalizer and, when recognized, insertion into the platform map. -/
def processAsset (env : Env) (st : LoopState) (asset : Asset) : LoopState :=
  if asset.name = "RELEASES" then
    let ensured := st.latest.files.getD {}
    match env.cacheReleaseList asset.browser_download_url with
    | some content =>
        { st with latest := { st.latest with files := some { ensured with RELEASES := some content } } }
    | none =>
        { st with latest := { st.latest with files := some ensured } }
  else if jsEndsWith asset.name ".yml" then
    match env.ymlFetch asset.browser_download_url with
    | some content => { st with yamlFiles := setKey st.yamlFiles asset.name content }
    | none => st
  else
    match checkPlatform asset.name with
    | none => st
    | some platform =>
        { st with latest := { st.latest with
            platforms := some (setKey (st.latest.platforms.getD []) platform
              { name := asset.name
                api_url := asset.url
                url := asset.browser_download_url
                content_type := asset.content_type
                size := roundedSizeMB asset.size }) } }

/-- The manifest stage of `refreshCache`: when at least one yml text was
held aside, store them under `files.yamlFiles` and apply, in order,
`latest-mac.yml` (checksum only), `latest-linux.yml` (checksum and
block-map size) and `latest.yml` (checksum only) to the platform map. -/
def applyYamlStage (env : Env) (latest : Latest) (yamlFiles : List (String × String)) : Latest :=
  if yamlFiles.isEmpty then latest
  else
    let files1 := some { latest.files.getD {} with yamlFiles := some yamlFiles }
    let ps0 := latest.platforms.getD []
    let ps1 :=
      match yamlFiles.lookup "latest-mac.yml" with
      | some c => applyYamlText env false ps0 c
      | none => ps0
    let ps2 :=
      match yamlFiles.lookup "latest-linux.yml" with
      | some c => applyYamlText env true ps1 c
      | none => ps1
    let ps3 :=
      match yamlFiles.lookup "latest.yml" with
      | some c => applyYamlText env false ps2 c
      | none => ps2
    { latest with files := files1, platforms := some ps3 }

/-- The asset loop of `refreshCache` run from its starting point: the
snapshot with the new tag, notes and publication date, the platform map
cleared, every other field (in particular `files`) kept as it was, and
no yml text held aside yet. -/
def assetLoop (env : Env) (s : CacheState) (release : Release) (assets : List Asset) : LoopState :=
  assets.foldl (processAsset env)
    { latest := { s.latest with
        version := some release.tag_name
        notes := some release.body
        pub_date := some release.published_at
        platforms := some [] }
      yamlFiles := [] }

/-- The snapshot produced by the caching path of `refreshCache`: the
asset loop followed by the manifest stage. -/
def buildSnapshot (env : Env) (s : CacheState) (release : Release) (assets : List Asset) : Latest :=
  applyYamlStage env (assetLoop env s release assets).latest (assetLoop env s release assets).yamlFiles

/-- The refresh protocol `Cache.refreshCache`.  The returned state is
the cache state after the call (the object is mutated in place in the
source); the second component is `Except.error ()` exactly when the call
throws, which happens only when the release-list fetch exhausts its
retry budget. -/
def refreshCache (env : Env) (pre : Bool) (s : CacheState) : CacheState × Except Unit Unit :=
  match env.releaseList with
  | .fetchError => (s, .error ())
  | .okNonArray => (s, .ok ())
  | .okArray data =>
    if data.isEmpty then (s, .ok ())
    else
      match selectRelease pre data with
      | none => (s, .ok ())
      | some release =>
        match release.assets with
        | none => (s, .ok ())
        | some assets =>
          if s.latest.version = some release.tag_name then
            ({ s with lastUpdate := some env.now }, .ok ())
          else
            ({ latest := buildSnapshot env s release assets, lastUpdate := some env.now }, .ok ())

/-- The staleness test `Cache.isOutdated`: more than `interval` minutes
(`ms` of the source, in milliseconds) since the last update; a cache
never updated is not reported outdated by this method (that case is
handled by `loadCache` itself). -/
def isOutdated (now interval : Nat) (s : CacheState) : Bool :=
  match s.lastUpdate with
  | some t => decide (now - t > interval * 60000)
  | none => false

/-- The public accessor `Cache.loadCache`: refresh first when there was
no update yet or the snapshot is outdated, then return a shallow copy of
`latest`.  There is no catch around the refresh, so a throwing refresh
propagates to the caller. -/
def loadCache (env : Env) (pre : Bool) (interval : Nat) (s : CacheState) :
    CacheState × Except Unit Latest :=
  if s.lastUpdate.isNone || isOutdated env.now interval s then
    match refreshCache env pre s with
    | (s', .ok _) => (s', .ok s'.latest)
    | (s', .error e) => (s', .error e)
  else (s, .ok s.latest)

/-! ## Theorems about the Normalizer and the Alias Resolver -/

/-- C1 (counterexample): the Normalizer does not implement the claimed
algorithm with the extension read as the text after the last dot: on
the dotfile name `.dmg` that reading yields extension `dmg` and hence
`darwin`, while the code's `path.extname` gives such a name no
extension, so the Normalizer does not recognize it. -/
theorem checkPlatform_after_last_dot_cex :
    checkPlatform ".dmg" ≠ claimedPlatform ".dmg" ∧
      claimedPlatform ".dmg" = some "darwin" ∧ checkPlatform ".dmg" = none := by
  decide

/-- C1 (amended): for every file name the Normalizer returns exactly the
result of the claimed priority algorithm once the extension is the one
`path.extname` computes (a basename whose only dot is its leading
character has no extension). -/
theorem checkPlatform_eq_claimedPlatformExt (fileName : String) :
    checkPlatform fileName = claimedPlatformExt fileName := by
  unfold checkPlatform claimedPlatformExt
  cases hm : jsIncludes fileName "mac" <;>
    cases hd : jsIncludes fileName "darwin" <;>
      simp [hm, hd, Bool.or_comm]

/-- C9 (counterexample): extension matching is case-sensitive for the
`dmg` rule as well: the upper-case variant `App-1.2.0.DMG` is not
recognized, while the lowercase form maps to `darwin`, so the two case
variants do not get the same canonical key. -/
theorem checkPlatform_case_cex :
    checkPlatform "App-1.2.0.DMG" = none ∧
      checkPlatform "App-1.2.0.dmg" = some "darwin" ∧
      checkPlatform "App-1.2.0.DMG" ≠ checkPlatform "App-1.2.0.dmg" := by
  decide

/-- C9 (amended): extension matching is case-sensitive for every rule of
the Normalizer: a file name whose extension is not literally one of
`dmg`, `AppImage`, `zip`, `exe`, `rpm`, `deb` is never recognized; in
particular neither the lowercase `app.appimage` nor the upper-case
`App-1.2.0.DMG` is recognized. -/
theorem checkPlatform_case_sensitive :
    (∀ fileName : String,
        (extname fileName).drop 1 ∉ (["dmg", "AppImage", "zip", "exe", "rpm", "deb"] : List String) →
          checkPlatform fileName = none) ∧
      checkPlatform "app.appimage" = none ∧ checkPlatform "App-1.2.0.DMG" = none := by
  refine ⟨fun fileName h => ?_, by decide, by decide⟩
  simp only [List.mem_cons, List.not_mem_nil, or_false, not_or] at h
  obtain ⟨h1, h2, h3, h4, h5, h6⟩ := h
  simp [checkPlatform, h1, h2, h3, h4, h5, h6]

/-- C9 (witness): the general case-sensitivity statement applied to the
concrete unrecognized name `file.xyz`. -/
theorem checkPlatform_case_sensitive_witness : checkPlatform "file.xyz" = none :=
  checkPlatform_case_sensitive.1 "file.xyz" (by decide)

/-- C7 (counterexample): the alias `exe` is declared in the alias list
of the canonical key `win32`, yet the resolver returns `exe`, not its
declaring owner `win32`, because the own-key check precedes the alias
scan. -/
theorem checkAlias_exe_cex :
    aliasesBase.lookup "win32" = some ["windows", "win", "exe"] ∧
      checkAlias "exe" = some "exe" ∧ checkAlias "exe" ≠ some "win32" := by
  decide

/-- C7 (amended): every declared alias that is not itself a key of the
derived table resolves to its first declared owner, and likewise for the
mechanically derived `_arm64` variants; an alias that is itself a table
key (`exe` in win32's list, `win32` in exe's list, and their `_arm64`
variants) resolves to itself because the key check runs first. -/
theorem checkAlias_resolves_declared :
    checkAlias "mac" = some "darwin" ∧ checkAlias "macos" = some "darwin" ∧
      checkAlias "osx" = some "darwin" ∧ checkAlias "dmg" = some "darwin" ∧
      checkAlias "windows" = some "win32" ∧ checkAlias "win" = some "win32" ∧
      checkAlias "AppImage" = some "linux" ∧ checkAlias "appimage" = some "linux" ∧
      checkAlias "debian" = some "deb" ∧ checkAlias "fedora" = some "rpm" ∧
      checkAlias "exe" = some "exe" ∧ checkAlias "win32" = some "win32" ∧
      checkAlias "mac_arm64" = some "darwin_arm64" ∧
      checkAlias "macos_arm64" = some "darwin_arm64" ∧
      checkAlias "osx_arm64" = some "darwin_arm64" ∧
      checkAlias "dmg_arm64" = some "darwin_arm64" ∧
      checkAlias "windows_arm64" = some "win32_arm64" ∧
      checkAlias "win_arm64" = some "win32_arm64" ∧
      checkAlias "AppImage_arm64" = some "linux_arm64" ∧
      checkAlias "appimage_arm64" = some "linux_arm64" ∧
      checkAlias "debian_arm64" = some "deb_arm64" ∧
      checkAlias "fedora_arm64" = some "rpm_arm64" ∧
      checkAlias "exe_arm64" = some "exe_arm64" ∧
      checkAlias "win32_arm64" = some "win32_arm64" := by
  decide

/-- C8: the Alias Resolver is idempotent on canonical keys: the derived
table's keys are exactly the six base keys followed by their `_arm64`
variants, and resolving any of them returns it unchanged. -/
theorem checkAlias_idempotent_on_keys :
    aliases.map Prod.fst =
        ["darwin", "win32", "linux", "deb", "rpm", "exe", "darwin_arm64", "win32_arm64",
          "linux_arm64", "deb_arm64", "rpm_arm64", "exe_arm64"] ∧
      ∀ k ∈ aliases.map Prod.fst, checkAlias k = some k := by
  decide

/-- C8 (witness): idempotence applied to the concrete derived canonical
key `darwin_arm64`. -/
theorem checkAlias_idempotent_on_keys_witness :
    checkAlias "darwin_arm64" = some "darwin_arm64" :=
  checkAlias_idempotent_on_keys.2 "darwin_arm64" (by decide)

/-! ## Theorems about the Snapshot Cache -/

/-- C4: when the release-list fetch fails on every retry attempt, the
refresh throws and the cache state — snapshot (version, platforms,
checksums, files) and staleness clock alike — is left completely
unchanged. -/
theorem refreshCache_fetch_exhausted (env : Env) (pre : Bool) (s : CacheState)
    (h : env.releaseList = .fetchError) :
    refreshCache env pre s = (s, .error ()) := by
  unfold refreshCache
  rw [h]

/-- Environment for the exhausted-retries scenario: every network call
fails. -/
def c4Env : Env :=
  { now := 1000000000
    releaseList := .fetchError
    cacheReleaseList := fun _ => none
    ymlFetch := fun _ => none
    parseYaml := fun _ => none }

/-- A cache state holding a previously refreshed snapshot. -/
def c4State : CacheState :=
  { latest := { version := some "v1.0.0", notes := some "first release"
                pub_date := some "2024-01-01T00:00:00Z"
                platforms := some [("darwin",
                  { name := "App-1.0.0.dmg", api_url := "https://api.github.com/assets/1"
                    url := "https://github.com/dl/App-1.0.0.dmg"
                    content_type := "application/octet-stream", size := 520
                    sha512 := some "b2xkaGFzaA==" })]
                files := none }
    lastUpdate := some 0 }

/-- C4 (witness): the exhausted-retries theorem at a concrete populated
cache state. -/
theorem refreshCache_fetch_exhausted_witness :
    refreshCache c4Env false c4State = (c4State, .error ()) :=
  refreshCache_fetch_exhausted c4Env false c4State rfl

/-- C5: when the selected release's tag equals the cached version, the
refresh short-circuits: the snapshot is byte-for-byte unchanged and only
the staleness clock is advanced to the current time. -/
theorem refreshCache_short_circuit (env : Env) (pre : Bool) (s : CacheState)
    (data : List Release) (release : Release) (assets : List Asset)
    (hl : env.releaseList = .okArray data)
    (hsel : selectRelease pre data = some release)
    (hassets : release.assets = some assets)
    (hver : s.latest.version = some release.tag_name) :
    refreshCache env pre s = ({ s with lastUpdate := some env.now }, .ok ()) := by
  have hne : data.isEmpty = false := by
    cases data with
    | nil => simp [selectRelease] at hsel
    | cons a t => rfl
  unfold refreshCache
  rw [hl]
  simp [hne, hsel, hassets, hver]

/-- The asset of the short-circuit scenario. -/
def c5Asset : Asset :=
  { name := "App-3.0.0.dmg", browser_download_url := "https://github.com/dl/App-3.0.0.dmg"
    url := "https://api.github.com/assets/3", content_type := "application/octet-stream"
    size := 52000000 }

/-- The release of the short-circuit scenario. -/
def c5Release : Release :=
  { tag_name := "v3.0.0", body := "third release", published_at := "2024-03-01T00:00:00Z"
    prerelease := false, draft := false, assets := some [c5Asset] }

/-- Environment serving an unchanged upstream release list. -/
def c5Env : Env :=
  { now := 777
    releaseList := .okArray [c5Release]
    cacheReleaseList := fun _ => none
    ymlFetch := fun _ => none
    parseYaml := fun _ => none }

/-- A cache state already holding the listed version. -/
def c5State : CacheState :=
  { latest := { version := some "v3.0.0", notes := some "third release"
                pub_date := some "2024-03-01T00:00:00Z"
                platforms := some [("darwin",
                  { name := "App-3.0.0.dmg", api_url := "https://api.github.com/assets/3"
                    url := "https://github.com/dl/App-3.0.0.dmg"
                    content_type := "application/octet-stream", size := 520 })]
                files := none }
    lastUpdate := some 1 }

/-- C5 (witness): the short-circuit theorem at a concrete state whose
cached version equals the selected release's tag. -/
theorem refreshCache_short_circuit_witness :
    refreshCache c5Env false c5State = ({ c5State with lastUpdate := some 777 }, .ok ()) :=
  refreshCache_short_circuit c5Env false c5State [c5Release] c5Release [c5Asset]
    rfl rfl rfl rfl

/-- C10: a refresh whose release-list fetch succeeds but yields no
usable release — the body is not an array, or the array is empty, or no
release has draft false and a prerelease flag equal to the configured
setting, or the selected release has no assets array — returns without
touching the snapshot or the staleness clock. -/
theorem refreshCache_unselected_noop (env : Env) (pre : Bool) (s : CacheState)
    (h : env.releaseList = .okNonArray ∨
      ∃ data, env.releaseList = .okArray data ∧
        (data.isEmpty = true ∨ selectRelease pre data = none ∨
          ∃ r, selectRelease pre data = some r ∧ r.assets = none)) :
    refreshCache env pre s = (s, .ok ()) := by
  rcases h with h | ⟨data, hl, he | hn | ⟨r, hr, hra⟩⟩
  · unfold refreshCache
    rw [h]
  · unfold refreshCache
    rw [hl]
    simp [he]
  · unfold refreshCache
    rw [hl]
    simp [hn]
  · unfold refreshCache
    rw [hl]
    simp [hr, hra]

/-- Environment whose release-list fetch returns a non-array body. -/
def c10Env : Env :=
  { now := 5
    releaseList := .okNonArray
    cacheReleaseList := fun _ => none
    ymlFetch := fun _ => none
    parseYaml := fun _ => none }

/-- C10 (witness): the no-usable-release theorem on a fresh cache and a
non-array release-list body. -/
theorem refreshCache_unselected_noop_witness :
    refreshCache c10Env true {} = ({}, .ok ()) :=
  refreshCache_unselected_noop c10Env true {} (Or.inl rfl)

/-- Environment for the propagated-error scenario: the release-list
fetch exhausts its retries. -/
def c3Env : Env :=
  { now := 1000000
    releaseList := .fetchError
    cacheReleaseList := fun _ => none
    ymlFetch := fun _ => none
    parseYaml := fun _ => none }

/-- A stale cache state holding a previous snapshot (refreshed at time
0, read at time 1000000 with a 15-minute interval). -/
def c3State : CacheState :=
  { latest := { version := some "v1.0.0", notes := some "first release"
                pub_date := some "2024-01-01T00:00:00Z"
                platforms := some [("darwin",
                  { name := "App-1.0.0.dmg", api_url := "https://api.github.com/assets/1"
                    url := "https://github.com/dl/App-1.0.0.dmg"
                    content_type := "application/octet-stream", size := 520 })]
                files := none }
    lastUpdate := some 0 }

/-- C3 (counterexample): a `loadCache` call that finds a stale previous
snapshot and whose refresh exhausts the release-list retries raises the
error to the caller instead of returning the previous snapshot. -/
theorem loadCache_error_cex :
    c3State.latest.version = some "v1.0.0" ∧
      isOutdated c3Env.now 15 c3State = true ∧
      (loadCache c3Env false 15 c3State).2 = .error () :=
  ⟨rfl, rfl, rfl⟩

/-- C3 (amended): `loadCache` has no handler around the refresh: when
the refresh is triggered and its release-list fetch exhausts its
retries, the error propagates to the caller, with the stored snapshot
and clock left unchanged for later calls; only a call that does not
trigger a refresh is guaranteed to receive the previous snapshot. -/
theorem loadCache_propagates_refresh_error (env : Env) (pre : Bool) (interval : Nat)
    (s : CacheState) (h : env.releaseList = .fetchError) :
    ((s.lastUpdate.isNone || isOutdated env.now interval s) = true →
        loadCache env pre interval s = (s, .error ())) ∧
      ((s.lastUpdate.isNone || isOutdated env.now interval s) = false →
        loadCache env pre interval s = (s, .ok s.latest)) := by
  refine ⟨fun hst => ?_, fun hst => ?_⟩
  · simp [loadCache, hst, refreshCache, h]
  · simp [loadCache, hst]

/-- C3 (witness): the propagation theorem at the concrete stale state
and failing environment. -/
theorem loadCache_propagates_refresh_error_witness :
    loadCache c3Env false 15 c3State = (c3State, .error ()) :=
  (loadCache_propagates_refresh_error c3Env false 15 c3State rfl).1 (by decide)

/-! ### The snapshot is only partially rebuilt (C2) -/

/-- The dmg asset of the first release of the carry-over scenario. -/
def c2DmgOld : Asset :=
  { name := "App-1.0.0.dmg", browser_download_url := "https://github.com/dl/App-1.0.0.dmg"
    url := "https://api.github.com/assets/1", content_type := "application/octet-stream"
    size := 52000000 }

/-- The aggregate installer-list asset of the first release. -/
def c2ReleasesAsset : Asset :=
  { name := "RELEASES", browser_download_url := "https://github.com/dl/RELEASES"
    url := "https://api.github.com/assets/2", content_type := "application/octet-stream"
    size := 100 }

/-- The first release: it carries a RELEASES asset. -/
def c2Rel1 : Release :=
  { tag_name := "v1.0.0", body := "first release", published_at := "2024-01-01T00:00:00Z"
    prerelease := false, draft := false, assets := some [c2ReleasesAsset, c2DmgOld] }

/-- The dmg asset of the second release. -/
def c2DmgNew : Asset :=
  { name := "App-2.0.0.dmg", browser_download_url := "https://github.com/dl/App-2.0.0.dmg"
    url := "https://api.github.com/assets/3", content_type := "application/octet-stream"
    size := 53000000 }

/-- The second release: a new tag and no RELEASES or yml asset. -/
def c2Rel2 : Release :=
  { tag_name := "v2.0.0", body := "second release", published_at := "2024-02-01T00:00:00Z"
    prerelease := false, draft := false, assets := some [c2DmgNew] }

/-- Environment of the first refresh: the RELEASES document fetch and
rewrite succeeds. -/
def c2Env1 : Env :=
  { now := 100
    releaseList := .okArray [c2Rel1]
    cacheReleaseList := fun _ => some "OLD-RELEASES-DOC"
    ymlFetch := fun _ => none
    parseYaml := fun _ => none }

/-- Environment of the second refresh: the upstream now lists only the
second release. -/
def c2Env2 : Env :=
  { now := 200
    releaseList := .okArray [c2Rel2]
    cacheReleaseList := fun _ => none
    ymlFetch := fun _ => none
    parseYaml := fun _ => none }

/-- The cache state after the first refresh from an empty cache. -/
def c2State1 : CacheState := (refreshCache c2Env1 false {}).1

/-- The cache state after the second refresh. -/
def c2State2 : CacheState := (refreshCache c2Env2 false c2State1).1

/-- C2 (counterexample): after the second refresh caches the new tag
v2.0.0, the snapshot still contains `files.RELEASES` stored by the
first release's refresh, although the second release carries no
RELEASES asset: the snapshot is partially updated in place, not
replaced wholesale, and is not internally consistent. -/
theorem refreshCache_stale_files_cex :
    c2State1.latest.version = some "v1.0.0" ∧
      c2State1.latest.files = some { RELEASES := some "OLD-RELEASES-DOC", yamlFiles := none } ∧
      c2Rel2.assets = some [c2DmgNew] ∧
      c2DmgNew.name = "App-2.0.0.dmg" ∧
      c2State2.latest.version = some "v2.0.0" ∧
      c2State2.latest.files = some { RELEASES := some "OLD-RELEASES-DOC", yamlFiles := none } ∧
      c2State2.latest.platforms = some [("darwin",
        { name := "App-2.0.0.dmg", api_url := "https://api.github.com/assets/3"
          url := "https://github.com/dl/App-2.0.0.dmg"
          content_type := "application/octet-stream", size := 530 })] :=
  ⟨rfl, rfl, rfl, rfl, rfl, rfl, rfl⟩

/-- An asset that is neither the RELEASES document nor a yml manifest
leaves everything but the platform map and the held-aside yml texts
untouched. -/
theorem processAsset_plain (env : Env) (st : LoopState) (a : Asset)
    (h1 : a.name ≠ "RELEASES") (h2 : jsEndsWith a.name ".yml" = false) :
    (processAsset env st a).latest.files = st.latest.files ∧
      (processAsset env st a).latest.version = st.latest.version ∧
      (processAsset env st a).latest.notes = st.latest.notes ∧
      (processAsset env st a).latest.pub_date = st.latest.pub_date ∧
      (processAsset env st a).yamlFiles = st.yamlFiles := by
  unfold processAsset
  rcases hcp : checkPlatform a.name with _ | p <;> simp [h1, h2, hcp]

/-- Folding the asset loop over assets that are neither the RELEASES
document nor yml manifests preserves the snapshot's `files`, `version`,
`notes` and `pub_date` fields and the held-aside yml texts. -/
theorem processAssets_plain (env : Env) (assets : List Asset)
    (hplain : ∀ a ∈ assets, a.name ≠ "RELEASES" ∧ jsEndsWith a.name ".yml" = false) :
    ∀ st : LoopState,
      (assets.foldl (processAsset env) st).latest.files = st.latest.files ∧
        (assets.foldl (processAsset env) st).latest.version = st.latest.version ∧
        (assets.foldl (processAsset env) st).latest.notes = st.latest.notes ∧
        (assets.foldl (processAsset env) st).latest.pub_date = st.latest.pub_date ∧
        (assets.foldl (processAsset env) st).yamlFiles = st.yamlFiles := by
  induction assets with
  | nil => intro st; exact ⟨rfl, rfl, rfl, rfl, rfl⟩
  | cons a t ih =>
    intro st
    have ha := hplain a (List.mem_cons_self a t)
    have h1 := processAsset_plain env st a ha.1 ha.2
    have h2 := ih (fun x hx => hplain x (List.mem_cons_of_mem a hx)) (processAsset env st a)
    simp only [List.foldl_cons]
    exact ⟨h2.1.trans h1.1, h2.2.1.trans h1.2.1, h2.2.2.1.trans h1.2.2.1,
      h2.2.2.2.1.trans h1.2.2.2.1, h2.2.2.2.2.trans h1.2.2.2.2⟩

/-- When the selected release has no RELEASES asset and no yml asset,
the built snapshot takes version, notes and publication date from that
release but keeps the previous snapshot's `files` object. -/
theorem buildSnapshot_plain (env : Env) (s : CacheState) (release : Release)
    (assets : List Asset)
    (hplain : ∀ a ∈ assets, a.name ≠ "RELEASES" ∧ jsEndsWith a.name ".yml" = false) :
    (buildSnapshot env s release assets).version = some release.tag_name ∧
      (buildSnapshot env s release assets).notes = some release.body ∧
      (buildSnapshot env s release assets).pub_date = some release.published_at ∧
      (buildSnapshot env s release assets).files = s.latest.files := by
  have hfold := processAssets_plain env assets hplain
    { latest := { s.latest with
        version := some release.tag_name
        notes := some release.body
        pub_date := some release.published_at
        platforms := some [] }
      yamlFiles := [] }
  have hy : (assetLoop env s release assets).yamlFiles = [] := hfold.2.2.2.2
  unfold buildSnapshot
  rw [hy]
  simp only [applyYamlStage, List.isEmpty_nil, if_true]
  exact ⟨hfold.2.1, hfold.2.2.1, hfold.2.2.2.1, hfold.1⟩

/-- C2 (amended): a refresh that caches a new tag rebuilds `version`,
`notes`, `pub_date` and the platform map from the selected release, but
it mutates the snapshot in place and its `files` object is only
partially updated: when the new release carries no RELEASES asset and no
yml asset, the previously stored `files` (including a previous release's
`files.RELEASES` and `files.yamlFiles`) remain in the published
snapshot. -/
theorem refreshCache_partial_files_update (env : Env) (pre : Bool) (s : CacheState)
    (data : List Release) (release : Release) (assets : List Asset)
    (hl : env.releaseList = .okArray data)
    (hsel : selectRelease pre data = some release)
    (hassets : release.assets = some assets)
    (hver : s.latest.version ≠ some release.tag_name)
    (hplain : ∀ a ∈ assets, a.name ≠ "RELEASES" ∧ jsEndsWith a.name ".yml" = false) :
    refreshCache env pre s =
        ({ latest := buildSnapshot env s release assets, lastUpdate := some env.now }, .ok ()) ∧
      (buildSnapshot env s release assets).version = some release.tag_name ∧
      (buildSnapshot env s release assets).notes = some release.body ∧
      (buildSnapshot env s release assets).pub_date = some release.published_at ∧
      (buildSnapshot env s release assets).files = s.latest.files := by
  have hne : data.isEmpty = false := by
    cases data with
    | nil => simp [selectRelease] at hsel
    | cons a t => rfl
  refine ⟨?_, buildSnapshot_plain env s release assets hplain⟩
  unfold refreshCache
  rw [hl]
  simp [hne, hsel, hassets, hver]

/-- C2 (witness): the partial-update theorem at the concrete second
refresh of the carry-over scenario. -/
theorem refreshCache_partial_files_update_witness :
    (buildSnapshot c2Env2 c2State1 c2Rel2 [c2DmgNew]).files = c2State1.latest.files :=
  (refreshCache_partial_files_update c2Env2 false c2State1 [c2Rel2] c2Rel2 [c2DmgNew]
    rfl rfl rfl (by decide) (by decide)).2.2.2.2

/-! ### Manifest application frame property (C6) -/

/-- The scan-and-break loop never mutates a map in which no asset bears
the referenced file name. -/
theorem applyEntryNamed_no_match (isLinux : Bool) (e : ManifestEntry) (fileName : String)
    (ps : List (String × PlatformAsset)) (h : ∀ p ∈ ps, p.2.name ≠ fileName) :
    applyEntryNamed isLinux e fileName ps = ps := by
  induction ps with
  | nil => rfl
  | cons p t ih =>
    obtain ⟨k, a⟩ := p
    have h1 : a.name ≠ fileName := h (k, a) (List.mem_cons_self _ _)
    have ht := ih (fun x hx => h x (List.mem_cons_of_mem _ hx))
    simp [applyEntryNamed, h1, ht]

/-- The scan-and-break loop updates exactly the first asset bearing the
referenced file name and leaves every entry before and after it
untouched. -/
theorem applyEntryNamed_first_match (isLinux : Bool) (e : ManifestEntry) (fileName : String)
    (k : String) (a : PlatformAsset) (post : List (String × PlatformAsset))
    (ha : a.name = fileName) (before : List (String × PlatformAsset))
    (hbefore : ∀ p ∈ before, p.2.name ≠ fileName) :
    applyEntryNamed isLinux e fileName (before ++ (k, a) :: post) =
      before ++ (k, updateAsset isLinux e a) :: post := by
  induction before with
  | nil => simp [applyEntryNamed, ha]
  | cons p t ih =>
    obtain ⟨k', a'⟩ := p
    have h1 : a'.name ≠ fileName := hbefore (k', a') (List.mem_cons_self _ _)
    have ht := ih (fun x hx => hbefore x (List.mem_cons_of_mem _ hx))
    simp [applyEntryNamed, h1, ht]

/-- C6: a manifest entry whose file reference equals the name of an
asset of the platform map sets that asset's checksum — and, exactly when
the entry comes from the Linux-family manifest, its block-map size —
while every other field of that asset, every other asset of the map, and
the whole map for an entry with no matching asset, are left unchanged. -/
theorem applyManifestEntry_frame (isLinux : Bool) (e : ManifestEntry) (u : String)
    (before post : List (String × PlatformAsset)) (k : String) (a : PlatformAsset)
    (hu : e.url = some u) (hne : u ≠ "") (ha : a.name = u)
    (hbefore : ∀ p ∈ before, p.2.name ≠ u) :
    applyManifestEntry isLinux (before ++ (k, a) :: post) e =
        before ++ (k, { a with
          sha512 := e.sha512
          blockMapSize := if isLinux then e.blockMapSize else a.blockMapSize }) :: post ∧
      ∀ ps : List (String × PlatformAsset), (∀ p ∈ ps, p.2.name ≠ u) →
        applyManifestEntry isLinux ps e = ps := by
  constructor
  · unfold applyManifestEntry
    rw [hu]
    dsimp only
    rw [if_neg hne, applyEntryNamed_first_match isLinux e u k a post ha before hbefore]
    cases isLinux <;> simp [updateAsset]
  · intro ps hps
    unfold applyManifestEntry
    rw [hu]
    dsimp only
    rw [if_neg hne]
    exact applyEntryNamed_no_match isLinux e u ps hps

/-- The macOS zip asset of the manifest scenario. -/
def c6MacAsset : PlatformAsset :=
  { name := "App-1.0.0-mac.zip", api_url := "https://api.github.com/assets/10"
    url := "https://github.com/dl/App-1.0.0-mac.zip", content_type := "application/zip"
    size := 880 }

/-- The Linux AppImage asset of the manifest scenario. -/
def c6LinuxAsset : PlatformAsset :=
  { name := "App-1.0.0.AppImage", api_url := "https://api.github.com/assets/11"
    url := "https://github.com/dl/App-1.0.0.AppImage"
    content_type := "application/octet-stream", size := 950 }

/-- The Windows installer asset of the manifest scenario. -/
def c6WinAsset : PlatformAsset :=
  { name := "App-Setup-1.0.0.exe", api_url := "https://api.github.com/assets/12"
    url := "https://github.com/dl/App-Setup-1.0.0.exe"
    content_type := "application/octet-stream", size := 700 }

/-- A latest-linux.yml entry referencing the AppImage asset. -/
def c6Entry : ManifestEntry :=
  { url := some "App-1.0.0.AppImage", sha512 := some "c2hhNTEyaGFzaA=="
    blockMapSize := some 98765 }

/-- C6 (witness): the frame theorem applied to a concrete three-asset
map and a Linux-manifest entry matching the middle asset. -/
theorem applyManifestEntry_frame_witness :
    applyManifestEntry true
        [("darwin", c6MacAsset), ("linux", c6LinuxAsset), ("win32", c6WinAsset)] c6Entry =
      [("darwin", c6MacAsset),
        ("linux",
          { c6LinuxAsset with sha512 := some "c2hhNTEyaGFzaA==", blockMapSize := some 98765 }),
        ("win32", c6WinAsset)] := by
  have h := (applyManifestEntry_frame true c6Entry "App-1.0.0.AppImage"
    [("darwin", c6MacAsset)] [("win32", c6WinAsset)] "linux" c6LinuxAsset
    rfl (by decide) rfl (by decide)).1
  simpa using h

end HazelArgos
